import Mathlib

/-!
# Verification of the overlap-aware network import engine

Shallow embedding of the CIDR overlap/hierarchy core of
`prop_infoblox_import_with_overlap.py`:

* `check_network_overlap`   — the pure CIDR relation (lines 52–75);
* `analyze_network_overlaps` — the hierarchy analyzer (lines 78–121);
* `create_networks_with_overlap_handling` — the two-phase executor
  (lines 176–350), with the InfoBlox client abstracted as a `Gateway`
  and the sequence of gateway invocations recorded explicitly.

Python data is embedded as follows: `ipaddress.ip_network(s, strict=False)`
becomes `parseNet` over IPv4 dotted-quad strings (the IPv6 branch of the
stdlib parser is out of scope; all repository inputs are IPv4); Python's
`set` and `dict` become insertion-ordered lists (CPython dicts are
insertion-ordered; for the `containers` set the iteration order is not
specified by Python, and insertion order is the deterministic model used
here); a raised exception becomes `Except.error`; machine integers do not
occur (Python ints are unbounded, all address arithmetic stays below 2^32
by construction).
-/

namespace AwsInfoblox

/-! ## Character/string primitives (models of the Python builtins used) -/

/-- Decimal value of a list of ASCII digit characters, most significant first. -/
def digitsVal (l : List Char) : Nat :=
  l.foldl (fun acc c => 10 * acc + (c.toNat - 48)) 0

/-- Nonempty and all ASCII decimal digits (model of `str.isdigit` on ASCII input). -/
def isDigits (l : List Char) : Bool :=
  !l.isEmpty && l.all (fun c => '0' ≤ c && c ≤ '9')

/-- Python `str.split(sep)` for a one-character separator, on the character list. -/
def splitOnChar (sep : Char) : List Char → List (List Char)
  | [] => [[]]
  | c :: rest =>
    let r := splitOnChar sep rest
    if c = sep then [] :: r
    else
      match r with
      | [] => [[c]]
      | h :: t => (c :: h) :: t

/-- Whitespace stripped by Python `int(str)` before parsing. -/
def isPySpace (c : Char) : Bool :=
  c = ' ' || c = '\t' || c = '\n' || c = '\r' || c = '\x0b' || c = '\x0c'

/-- Python `int(s)` on a decimal string: strip whitespace, optional sign,
then decimal digits (underscore digit separators are not modelled). -/
def pyInt (s : String) : Option Int :=
  let t := ((s.toList.dropWhile isPySpace).reverse.dropWhile isPySpace).reverse
  let (sign, digits) : Int × List Char :=
    match t with
    | '-' :: rest => (-1, rest)
    | '+' :: rest => (1, rest)
    | _ => (1, t)
  if isDigits digits then some (sign * (digitsVal digits : Int)) else none

/-- ASCII lowering, the model of `str.lower()` on the ASCII error messages. -/
def charLower (c : Char) : Char :=
  if 'A' ≤ c && c ≤ 'Z' then Char.ofNat (c.toNat + 32) else c

/-- `listPrefix n h` holds when `n` is a prefix of `h`. -/
def listPrefix : List Char → List Char → Bool
  | [], _ => true
  | _ :: _, [] => false
  | a :: as, b :: bs => a = b && listPrefix as bs

/-- Substring test: model of Python `needle in haystack` on strings. -/
def listInfix (n : List Char) : List Char → Bool
  | [] => listPrefix n []
  | c :: rest => listPrefix n (c :: rest) || listInfix n rest

/-! ## IPv4 CIDR parsing (`ipaddress.ip_network(s, strict=False)`) -/

/-- One dotted-quad octet, per `ipaddress._parse_octet`: 1–3 ASCII digits,
no leading zero unless the octet is exactly `0`, value at most 255. -/
def parseOctet (l : List Char) : Option Nat :=
  if isDigits l && l.length ≤ 3 && (l.length == 1 || l.head? != some '0') then
    if digitsVal l ≤ 255 then some (digitsVal l) else none
  else none

/-- Dotted-quad IPv4 address as a `Nat` below `2^32`. -/
def parseIPv4 (l : List Char) : Option Nat :=
  match (splitOnChar '.' l).mapM parseOctet with
  | some [a, b, c, d] => some (((a * 256 + b) * 256 + c) * 256 + d)
  | _ => none

/-- Prefix length, per `ipaddress._prefix_from_prefix_string`: ASCII digits
only, value at most 32 (the dotted-netmask alternative accepted by the
stdlib is not modelled; no repository input uses it). -/
def parsePrefix (l : List Char) : Option Nat :=
  if isDigits l then
    if digitsVal l ≤ 32 then some (digitsVal l) else none
  else none

/-- An IPv4 network block: network address (host bits cleared) and prefix length. -/
structure Net where
  addr : Nat
  plen : Nat
deriving DecidableEq, Repr

/-- Clear the host bits of `a` for prefix length `p` (`strict=False` parsing). -/
def maskBits (a p : Nat) : Nat := a - a % 2 ^ (32 - p)

/-- `ipaddress.ip_network(s, strict=False)` on an IPv4 CIDR string: at most
one `/`; a bare address gets prefix length 32; host bits are cleared. -/
def parseNet (s : String) : Option Net :=
  match splitOnChar '/' s.toList with
  | [a] => (parseIPv4 a).map (fun ip => ⟨ip, 32⟩)
  | [a, p] =>
    match parseIPv4 a, parsePrefix p with
    | some ip, some pl => some ⟨maskBits ip pl, pl⟩
    | _, _ => none
  | _ => none

/-- Highest address of the block (`broadcast_address`). -/
def netLast (n : Net) : Nat := n.addr + (2 ^ (32 - n.plen) - 1)

/-- Python `a.subnet_of(b)`: every address of `a` lies in `b`. -/
def subnetOf (a b : Net) : Bool := b.addr ≤ a.addr && netLast a ≤ netLast b

/-- Python `a.supernet_of(b)`, defined in the stdlib as `b.subnet_of(a)`. -/
def supernetOf (a b : Net) : Bool := subnetOf b a

/-- Python `a.overlaps(b)`: the two address ranges intersect. -/
def overlapsB (a b : Net) : Bool := b.addr ≤ netLast a && a.addr ≤ netLast b

/-! ## `check_network_overlap` (lines 52–75) -/

/-- `check_network_overlap(cidr1, cidr2)`: parse both (non-strict), then test
`supernet_of`, `subnet_of`, `overlaps` in that order; any parse failure is
caught and reported as `"error"`. -/
def check_network_overlap (cidr1 cidr2 : String) : String :=
  match parseNet cidr1, parseNet cidr2 with
  | some net1, some net2 =>
    if supernetOf net1 net2 then "contains"
    else if subnetOf net1 net2 then "contained"
    else if overlapsB net1 net2 then "overlap"
    else "none"
  | _, _ => "error"

/-! ## `analyze_network_overlaps` (lines 78–121) -/

/-- One expanded network record (`{'cidr': ..., 'site_id': ..., 'm_host': ...,
'mapped_eas': ...}`); extended attributes are an association list. -/
structure NetRecord where
  cidr : String
  site_id : String
  m_host : String
  mapped_eas : List (String × String)
deriving DecidableEq, Repr

/-- The sort key `int(x['cidr'].split('/')[1])`: `IndexError` when the CIDR
has no `/`, `ValueError` when the prefix part is not an integer literal. -/
def sortKey (r : NetRecord) : Except String Int :=
  match (splitOnChar '/' r.cidr.toList).get? 1 with
  | none => .error "IndexError: list index out of range"
  | some s =>
    match pyInt (String.mk s) with
    | none => .error "ValueError: invalid literal for int() with base 10"
    | some k => .ok k

/-- Insert into a key-sorted list, before the first strictly greater key
(equal keys keep the incoming — originally earlier — element first). -/
def insertByKey (p : Int × NetRecord) : List (Int × NetRecord) → List (Int × NetRecord)
  | [] => [p]
  | q :: rest => if p.1 ≤ q.1 then p :: q :: rest else q :: insertByKey p rest

/-- Stable sort by key. Python's `sorted` (Timsort) is stable, and any two
stable sorts over a total key order agree, so insertion sort is an
extensionally faithful model of it. -/
def insertionSortByKey : List (Int × NetRecord) → List (Int × NetRecord)
  | [] => []
  | p :: rest => insertByKey p (insertionSortByKey rest)

/-- Result of the analyzer: the `containers` set and `relationships` dict
are modelled as insertion-ordered lists, `overlaps` pairs carry the
human-readable message built at line 117. -/
structure OverlapAnalysis where
  containers : List String
  relationships : List (String × List NetRecord)
  overlaps : List (NetRecord × NetRecord × String)
deriving DecidableEq, Repr

/-- `set.add`: append when not yet present. -/
def setAdd (s : List String) (x : String) : List String :=
  if x ∈ s then s else s ++ [x]

/-- `relationships.setdefault(cidr1, []).append(net2)` on the insertion-ordered dict. -/
def dictAppend (d : List (String × List NetRecord)) (k : String) (v : NetRecord) :
    List (String × List NetRecord) :=
  match d with
  | [] => [(k, [v])]
  | (k', vs) :: rest =>
    if k' = k then (k', vs ++ [v]) :: rest else (k', vs) :: dictAppend rest k v

/-- The body of the inner pair loop (lines 102–119) for the pair `(net1, net2)`. -/
def processPair (net1 : NetRecord) (acc : OverlapAnalysis) (net2 : NetRecord) :
    OverlapAnalysis :=
  let t := check_network_overlap net1.cidr net2.cidr
  if t = "contains" then
    { acc with
      containers := setAdd acc.containers net1.cidr
      relationships := dictAppend acc.relationships net1.cidr net2 }
  else if t = "overlap" then
    { acc with
      overlaps := acc.overlaps ++
        [(net1, net2,
          "Networks " ++ net1.cidr ++ " and " ++ net2.cidr ++ " partially overlap")] }
  else acc

/-- The double loop over ordered pairs of the sorted record list (lines 96–119). -/
def pairLoop : List NetRecord → OverlapAnalysis → OverlapAnalysis
  | [], acc => acc
  | n1 :: rest, acc => pairLoop rest (rest.foldl (processPair n1) acc)

/-- Attach the sort key to every record, in list order; CPython's `sorted`
computes all keys first, in list order, so the first failing key raises. -/
def keyAll : List NetRecord → Except String (List (Int × NetRecord))
  | [] => .ok []
  | r :: rest =>
    match sortKey r with
    | .error e => .error e
    | .ok k =>
      match keyAll rest with
      | .error e => .error e
      | .ok ks => .ok ((k, r) :: ks)

/-- `analyze_network_overlaps(networks)`: sort by prefix-length key, then
run the pair loop starting from the empty analysis. -/
def analyze_network_overlaps (networks : List NetRecord) :
    Except String OverlapAnalysis :=
  match keyAll networks with
  | .error e => .error e
  | .ok keyed => .ok (pairLoop ((insertionSortByKey keyed).map (fun p => p.2)) ⟨[], [], []⟩)

/-! ## `create_networks_with_overlap_handling` (lines 176–350)

The InfoBlox client is abstracted as a `Gateway`: each operation either
returns a reference string or raises (`Except.error` with the exception
message, matching the `except Exception as e` handlers). The executor also
returns the list of gateway invocations it performed, so that "no network
calls are made in dry-run" is a provable statement. -/

structure Gateway where
  create_network_container :
    String → String → String → List (String × String) → Except String String
  create_network :
    String → String → String → List (String × String) → Except String String

/-- One recorded gateway invocation (cidr, network_view, comment, extattrs). -/
inductive GwCall
  | container (cidr network_view comment : String) (extattrs : List (String × String))
  | network (cidr network_view comment : String) (extattrs : List (String × String))
deriving DecidableEq, Repr

/-- One result dict appended to `results`; keys that a given branch does not
set are `none` (the Python dict simply lacks them, and every reader uses
`.get(key, default)`; a `parent_container` key explicitly set to `None` is
identified with the absent key, which `.get` cannot distinguish either). -/
structure CreationResult where
  cidr : String
  site_id : String
  m_host : String
  action : String
  result : Option String := none
  ref : Option String := none
  contained_networks : Option Nat := none
  parent_container : Option String := none
  error : Option String := none
  category : Option String := none
deriving DecidableEq, Repr

/-- `relationships.get(cidr, [])`. -/
def relGet (d : List (String × List NetRecord)) (k : String) : List NetRecord :=
  match d.find? (fun p => p.1 == k) with
  | some p => p.2
  | none => []

/-- The comment built for a container creation (line 231). -/
def containerComment (m_host site_id : String) : String :=
  "Property Network Container: " ++ m_host ++ " (Site ID: " ++ site_id ++ ")"

/-- The comment built for a leaf network creation (lines 301–303). -/
def networkComment (m_host site_id : String) (parent : Option String) : String :=
  let base := "Property Network: " ++ m_host ++ " (Site ID: " ++ site_id ++ ")"
  match parent with
  | some p => base ++ " [Container: " ++ p ++ "]"
  | none => base

/-- Error classification of a failed leaf creation (lines 330–335):
case-insensitive substring match, `overlap` before `permission`, else
`unknown`. -/
def categorize (msg : String) : String :=
  let m := msg.toList.map charLower
  if listInfix "overlap".toList m then "overlap"
  else if listInfix "permission".toList m then "permission"
  else "unknown"

/-- The parent-container search (lines 275–279): the first member of the
`containers` set — insertion order in this model — that contains `cidr`. -/
def pickParent (containers : List String) (cidr : String) : Option String :=
  containers.find? (fun c => check_network_overlap c cidr == "contains")

/-- Phase one (lines 204–260): walk `missing_networks` in input order and
process every record whose CIDR is in `containers`. Returns the results,
the gateway calls made, and the `created_containers` set (a record's CIDR
is added in the dry-run and success branches only). -/
def containerPhase (gw : Gateway) (oa : OverlapAnalysis) (network_view : String)
    (dry_run : Bool) :
    List NetRecord → List CreationResult × List GwCall × List String
  | [] => ([], [], [])
  | item :: rest =>
    let (res', calls', created') := containerPhase gw oa network_view dry_run rest
    if item.cidr ∈ oa.containers then
      if dry_run then
        ({ cidr := item.cidr, site_id := item.site_id, m_host := item.m_host
           action := "would_create_container", result := some "success"
           contained_networks := some (relGet oa.relationships item.cidr).length } :: res',
         calls', item.cidr :: created')
      else
        let c := containerComment item.m_host item.site_id
        match gw.create_network_container item.cidr network_view c item.mapped_eas with
        | .ok ref =>
          ({ cidr := item.cidr, site_id := item.site_id, m_host := item.m_host
             action := "created_container", result := some "success", ref := some ref
             contained_networks := some (relGet oa.relationships item.cidr).length } :: res',
           GwCall.container item.cidr network_view c item.mapped_eas :: calls',
           item.cidr :: created')
        | .error e =>
          ({ cidr := item.cidr, site_id := item.site_id, m_host := item.m_host
             action := "error_container", error := some e
             category := some "container_creation" } :: res',
           GwCall.container item.cidr network_view c item.mapped_eas :: calls',
           created')
    else
      (res', calls', created')

/-- Phase two (lines 262–345): walk `missing_networks` again, skip records
already created as containers, compute the parent container, and create the
leaf network (the dry-run branch raises nothing; a live failure is caught
and categorized). -/
def networkPhase (gw : Gateway) (oa : OverlapAnalysis) (network_view : String)
    (dry_run : Bool) (created_containers : List String) :
    List NetRecord → List CreationResult × List GwCall
  | [] => ([], [])
  | item :: rest =>
    let (res', calls') := networkPhase gw oa network_view dry_run created_containers rest
    if item.cidr ∈ created_containers then
      (res', calls')
    else
      let parent := pickParent oa.containers item.cidr
      if dry_run then
        ({ cidr := item.cidr, site_id := item.site_id, m_host := item.m_host
           action := if parent.isSome then "would_create_in_container" else "would_create"
           result := some "success", parent_container := parent } :: res',
         calls')
      else
        let c := networkComment item.m_host item.site_id parent
        match gw.create_network item.cidr network_view c item.mapped_eas with
        | .ok ref =>
          ({ cidr := item.cidr, site_id := item.site_id, m_host := item.m_host
             action := if parent.isSome then "created_in_container" else "created"
             result := some "success", ref := some ref
             parent_container := parent } :: res',
           GwCall.network item.cidr network_view c item.mapped_eas :: calls')
        | .error e =>
          ({ cidr := item.cidr, site_id := item.site_id, m_host := item.m_host
             action := "error", error := some e, category := some (categorize e)
             parent_container := parent } :: res',
           GwCall.network item.cidr network_view c item.mapped_eas :: calls')

/-- `create_networks_with_overlap_handling(missing_networks, network_view,
dry_run)`: run the analyzer (whose exception, if any, propagates — it is
called outside every `try`), then the container phase, then the leaf phase.
The returned pair is (results, gateway calls), each in emission order; the
status-report generation at lines 347–348 is file output and is not part of
the returned value. -/
def runPhases (gw : Gateway) (oa : OverlapAnalysis) (network_view : String)
    (dry_run : Bool) (missing_networks : List NetRecord) :
    List CreationResult × List GwCall :=
  let cp := containerPhase gw oa network_view dry_run missing_networks
  let np := networkPhase gw oa network_view dry_run cp.2.2 missing_networks
  (cp.1 ++ np.1, cp.2.1 ++ np.2)

def create_networks_with_overlap_handling (gw : Gateway)
    (missing_networks : List NetRecord) (network_view : String) (dry_run : Bool) :
    Except String (List CreationResult × List GwCall) :=
  match analyze_network_overlaps missing_networks with
  | .error e => .error e
  | .ok oa => .ok (runPhases gw oa network_view dry_run missing_networks)

/-! ## Derived shapes used to state properties of the executor -/

/-- The result appended by the dry-run branch of the container phase. -/
def dryContainerResult (oa : OverlapAnalysis) (r : NetRecord) : CreationResult :=
  { cidr := r.cidr, site_id := r.site_id, m_host := r.m_host
    action := "would_create_container", result := some "success"
    contained_networks := some (relGet oa.relationships r.cidr).length }

/-- The result appended by the dry-run branch of the leaf phase. -/
def dryNetworkResult (oa : OverlapAnalysis) (r : NetRecord) : CreationResult :=
  { cidr := r.cidr, site_id := r.site_id, m_host := r.m_host
    action :=
      if (pickParent oa.containers r.cidr).isSome then "would_create_in_container"
      else "would_create"
    result := some "success", parent_container := pickParent oa.containers r.cidr }

/-- A gateway built from two total functions: every call succeeds. -/
def gwOf (f g : String → String → String → List (String × String) → String) :
    Gateway :=
  ⟨fun a b c d => .ok (f a b c d), fun a b c d => .ok (g a b c d)⟩

/-- The result appended by the live container branch under a `gwOf` gateway. -/
def liveContainerResult
    (f : String → String → String → List (String × String) → String)
    (oa : OverlapAnalysis) (network_view : String) (r : NetRecord) : CreationResult :=
  { cidr := r.cidr, site_id := r.site_id, m_host := r.m_host
    action := "created_container", result := some "success"
    ref := some (f r.cidr network_view (containerComment r.m_host r.site_id) r.mapped_eas)
    contained_networks := some (relGet oa.relationships r.cidr).length }

/-- The result appended by the live leaf branch under a `gwOf` gateway. -/
def liveNetworkResult
    (g : String → String → String → List (String × String) → String)
    (oa : OverlapAnalysis) (network_view : String) (r : NetRecord) : CreationResult :=
  { cidr := r.cidr, site_id := r.site_id, m_host := r.m_host
    action :=
      if (pickParent oa.containers r.cidr).isSome then "created_in_container"
      else "created"
    result := some "success"
    ref := some (g r.cidr network_view
      (networkComment r.m_host r.site_id (pickParent oa.containers r.cidr)) r.mapped_eas)
    parent_container := pickParent oa.containers r.cidr }

/-- The gateway call issued by the live container branch. -/
def containerCall (v : String) (r : NetRecord) : GwCall :=
  GwCall.container r.cidr v (containerComment r.m_host r.site_id) r.mapped_eas

/-- The gateway call issued by the live leaf branch. -/
def networkCall (oa : OverlapAnalysis) (v : String) (r : NetRecord) : GwCall :=
  GwCall.network r.cidr v
    (networkComment r.m_host r.site_id (pickParent oa.containers r.cidr)) r.mapped_eas

/-- The live action corresponding to a dry-run action. -/
def liveActionOf (a : String) : String :=
  if a = "would_create_container" then "created_container"
  else if a = "would_create" then "created"
  else if a = "would_create_in_container" then "created_in_container"
  else a

/-- The prefix-length key of a CIDR string (0 when the key would raise);
on every record the analyzer accepts, it agrees with `sortKey`. -/
def keyI (c : String) : Int :=
  match (splitOnChar '/' c.toList).get? 1 with
  | none => 0
  | some s => (pyInt (String.mk s)).getD 0

/-! ## Shared concrete inputs and helper lemmas -/

/-- A record with empty extended attributes, for concrete instances. -/
def mkR (c s h : String) : NetRecord := ⟨c, s, h, []⟩

/-- A gateway whose calls all succeed with a fixed reference. -/
def okGw : Gateway := ⟨fun _ _ _ _ => .ok "ref", fun _ _ _ _ => .ok "ref"⟩

/-- `10.0.0.0/8`, `10.0.0.0/16`, `10.0.0.0/24`: three strictly nested blocks. -/
def recA8 : NetRecord := mkR "10.0.0.0/8" "sa" "ha"
def recB16 : NetRecord := mkR "10.0.0.0/16" "sb" "hb"
def recC24 : NetRecord := mkR "10.0.0.0/24" "sc" "hc"

/-- The analyzer's output on any ordering of the three nested records. -/
def oaNested : OverlapAnalysis :=
  ⟨["10.0.0.0/8", "10.0.0.0/16"],
   [("10.0.0.0/8", [recB16, recC24]), ("10.0.0.0/16", [recC24])],
   []⟩

/-- Dry-run executor output on the input order `[B, C, A]`. -/
def dryNestedResults : List CreationResult :=
  [dryContainerResult oaNested recB16, dryContainerResult oaNested recA8,
   dryNetworkResult oaNested recC24]

/-- A gateway whose container creations fail and network creations succeed. -/
def gwFailCont : Gateway :=
  ⟨fun _ _ _ _ => .error "boom", fun _ _ _ _ => .ok "ref"⟩

/-- A gateway whose network creations fail with an `Invalid input` message. -/
def gwInvalid : Gateway :=
  ⟨fun _ _ _ _ => .ok "ref", fun _ _ _ _ => .error "Invalid input"⟩

/-- The live result produced for the lone record `recC24` under `okGw`. -/
def liveC24Result : CreationResult :=
  { cidr := "10.0.0.0/24", site_id := "sc", m_host := "hc", action := "created"
    result := some "success", ref := some "ref" }

/-- The live result produced for the lone record `recC24` under `gwInvalid`. -/
def invalidC24Result : CreationResult :=
  { cidr := "10.0.0.0/24", site_id := "sc", m_host := "hc", action := "error"
    error := some "Invalid input", category := some "unknown" }

theorem check_contains_self {a : String} {n : Net} (h : parseNet a = some n) :
    check_network_overlap a a = "contains" := by
  simp [check_network_overlap, h, supernetOf, subnetOf]

theorem parsePrefix_le {l : List Char} {p : Nat} (h : parsePrefix l = some p) :
    p ≤ 32 := by
  unfold parsePrefix at h
  split at h
  · split at h
    · rename_i h32
      cases h
      exact h32
    · cases h
  · cases h

theorem parseNet_plen_le {s : String} {n : Net} (h : parseNet s = some n) :
    n.plen ≤ 32 := by
  unfold parseNet at h
  split at h
  · obtain ⟨ip, _, rfl⟩ := Option.map_eq_some'.mp h
    exact Nat.le_refl 32
  · split at h
    · rename_i hip hpl
      cases h
      exact parsePrefix_le hpl
    · cases h
  · cases h

/-- The sort key reads only the `cidr` field. -/
theorem sortKey_congr {r1 r2 : NetRecord} (h : r1.cidr = r2.cidr) :
    sortKey r1 = sortKey r2 := by
  unfold sortKey
  rw [h]

/-! ## C1 — the relation on an identical pair -/

/-- C1 counterexample: on the exactly equal pair `10.0.1.0/24`,
`check_network_overlap` returns `"contains"`, not the claimed `"overlap"`
(`supernet_of` is reflexive in the Python stdlib and is tested first). -/
theorem C1_counterexample :
    check_network_overlap "10.0.1.0/24" "10.0.1.0/24" = "contains" ∧
      check_network_overlap "10.0.1.0/24" "10.0.1.0/24" ≠ "overlap" := by
  constructor
  · rfl
  · decide

/-- C1 (amended): for every CIDR string that parses, `relate(a, a)` returns
`"contains"` — the identical pair is classified as a containment, never as
`"overlap"` or `"none"`. -/
theorem C1_theorem (a : String) (n : Net) (h : parseNet a = some n) :
    check_network_overlap a a = "contains" :=
  check_contains_self h

/-- Witness for C1 at `192.168.0.0/16`. -/
theorem C1_witness :
    check_network_overlap "192.168.0.0/16" "192.168.0.0/16" = "contains" :=
  C1_theorem "192.168.0.0/16" ⟨3232235520, 16⟩ (by rfl)

/-- Two well-formed blocks that are supernets of each other are equal. -/
theorem supernet_antisymm {a b : Net} (ha : a.plen ≤ 32) (hb : b.plen ≤ 32)
    (h1 : supernetOf a b = true) (h2 : supernetOf b a = true) : a = b := by
  unfold supernetOf subnetOf at h1 h2
  simp only [Bool.and_eq_true, decide_eq_true_eq] at h1 h2
  obtain ⟨h1a, h1b⟩ := h1
  obtain ⟨h2a, h2b⟩ := h2
  have haddr : a.addr = b.addr := Nat.le_antisymm h1a h2a
  have hlast : netLast a = netLast b := Nat.le_antisymm h2b h1b
  unfold netLast at hlast
  have hA : 0 < 2 ^ (32 - a.plen) := Nat.pos_pow_of_pos _ (by norm_num)
  have hB : 0 < 2 ^ (32 - b.plen) := Nat.pos_pow_of_pos _ (by norm_num)
  have hpow : 2 ^ (32 - a.plen) = 2 ^ (32 - b.plen) := by omega
  have hexp : 32 - a.plen = 32 - b.plen :=
    Nat.pow_right_injective (by norm_num) hpow
  cases a
  cases b
  simp only [Net.mk.injEq] at *
  exact ⟨haddr, by omega⟩

/-! ## C9 — the relation and its swap -/

/-- C9 counterexample: at the equal pair `10.0.1.0/24`, `relate(a,b)` is
`"contains"` but `relate(b,a)` is also `"contains"`, not `"contained"`,
so the claimed equivalence fails. -/
theorem C9_counterexample :
    ¬ (check_network_overlap "10.0.1.0/24" "10.0.1.0/24" = "contains" ↔
       check_network_overlap "10.0.1.0/24" "10.0.1.0/24" = "contained") := by
  intro h
  exact absurd (h.mp (by rfl)) (by decide)

/-- C9 (amended): for CIDR strings parsing to *distinct* network blocks,
`relate(a,b) = "contains"` iff `relate(b,a) = "contained"`; for equal
blocks both directions return `"contains"` (see the counterexample). -/
theorem C9_theorem (a b : String) (na nb : Net)
    (ha : parseNet a = some na) (hb : parseNet b = some nb) (hne : na ≠ nb) :
    (check_network_overlap a b = "contains" ↔
     check_network_overlap b a = "contained") := by
  have hpa := parseNet_plen_le ha
  have hpb := parseNet_plen_le hb
  unfold check_network_overlap supernetOf
  rw [ha, hb]
  by_cases h1 : subnetOf nb na = true
  · by_cases h2 : subnetOf na nb = true
    · exact absurd (supernet_antisymm hpa hpb h1 h2) hne
    · simp [h1, h2]
  · by_cases h2 : subnetOf na nb = true
    · simp [h1, h2]
    · simp only [h1, h2, if_false, Bool.false_eq_true]
      constructor
      · intro h
        exact absurd h (by split <;> simp)
      · intro h
        exact absurd h (by split <;> simp)

/-- Witness for C9 on `10.0.0.0/8` ⊃ `10.0.0.0/16`. -/
theorem C9_witness :
    (check_network_overlap "10.0.0.0/8" "10.0.0.0/16" = "contains" ↔
     check_network_overlap "10.0.0.0/16" "10.0.0.0/8" = "contained") :=
  C9_theorem _ _ ⟨167772160, 8⟩ ⟨167772160, 16⟩ (by rfl) (by rfl) (by decide)

/-! ## C8 — malformed CIDR reaching the analyzer -/

/-- C8: for a record whose CIDR has no `/` (for example the bare address
`10.0.0.0`), the analyzer does not return normally: the sort key
`int(x['cidr'].split('/')[1])` raises `IndexError` before any pair is
examined, contradicting the never-raise requirement (the spec's failure
semantics; `check_network_overlap` itself does catch its parse errors). -/
theorem C8_theorem :
    analyze_network_overlaps [mkR "10.0.0.0" "site-1" "host-1"] =
      .error "IndexError: list index out of range" := by
  rfl

/-! ## C2 — a duplicated CIDR in one batch -/

/-- C2 counterexample: with `10.0.1.0/24` duplicated (different attributes),
the analyzer leaves `overlaps` empty and promotes the CIDR to `containers`
(the pair relates as `"contains"`, not `"overlap"`), contrary to the claim. -/
theorem C2_counterexample :
    (analyze_network_overlaps
        [mkR "10.0.1.0/24" "s1" "h1", mkR "10.0.1.0/24" "s2" "h2"]).map
        (fun oa => (oa.containers, oa.overlaps)) =
      .ok (["10.0.1.0/24"], []) := by
  rfl

/-- C2 (amended): for a batch of two records carrying the same valid CIDR,
the analyzer classifies the pair as a containment: the CIDR is added to
`containers`, the second record is recorded under `relationships`, and
`overlaps` stays empty (so both records are later created as containers and
neither is given a parent). -/
theorem C2_theorem (r1 r2 : NetRecord) (n : Net) (k : Int)
    (hc : r1.cidr = r2.cidr) (hp : parseNet r1.cidr = some n)
    (hk : sortKey r1 = .ok k) :
    analyze_network_overlaps [r1, r2] =
      .ok ⟨[r1.cidr], [(r1.cidr, [r2])], []⟩ := by
  have hk2 : sortKey r2 = .ok k := (sortKey_congr hc) ▸ hk
  have hch : check_network_overlap r1.cidr r2.cidr = "contains" := by
    rw [← hc]
    exact check_contains_self hp
  unfold analyze_network_overlaps
  simp [keyAll, hk, hk2, insertionSortByKey, insertByKey, pairLoop,
    processPair, hch, setAdd, dictAppend]

/-- Witness for C2 at a duplicated `172.16.0.0/12`. -/
theorem C2_witness :
    analyze_network_overlaps
        [mkR "172.16.0.0/12" "s1" "h1", mkR "172.16.0.0/12" "s2" "h2"] =
      .ok ⟨["172.16.0.0/12"],
        [("172.16.0.0/12", [mkR "172.16.0.0/12" "s2" "h2"])], []⟩ :=
  C2_theorem (mkR "172.16.0.0/12" "s1" "h1") (mkR "172.16.0.0/12" "s2" "h2")
    ⟨2886729728, 12⟩ 12 (by rfl) (by rfl) (by rfl)

/-! ## Characterizations of the two phases -/

/-- Dry-run container phase: one `would_create_container` result per input
record whose CIDR is in `containers`, in input order; no gateway calls; the
`created_containers` set collects exactly those CIDRs. -/
theorem containerPhase_dry (gw : Gateway) (oa : OverlapAnalysis) (v : String) :
    ∀ l : List NetRecord,
      containerPhase gw oa v true l =
        ((l.filter (fun r => r.cidr ∈ oa.containers)).map (dryContainerResult oa), [],
         (l.filter (fun r => r.cidr ∈ oa.containers)).map (fun r => r.cidr))
  | [] => by simp [containerPhase]
  | item :: rest => by
    by_cases h : item.cidr ∈ oa.containers <;>
      simp [containerPhase, h, containerPhase_dry gw oa v rest, dryContainerResult,
        List.filter_cons]

/-- Dry-run leaf phase: one result per input record not already created as a
container, in input order; no gateway calls. -/
theorem networkPhase_dry (gw : Gateway) (oa : OverlapAnalysis) (v : String)
    (created : List String) :
    ∀ l : List NetRecord,
      networkPhase gw oa v true created l =
        ((l.filter (fun r => r.cidr ∉ created)).map (dryNetworkResult oa), [])
  | [] => by simp [networkPhase]
  | item :: rest => by
    by_cases h : item.cidr ∈ created <;>
      simp [networkPhase, h, networkPhase_dry gw oa v created rest, dryNetworkResult,
        List.filter_cons]

/-! ## C10 — dry-run results never carry an error action -/

/-- C10: in dry-run mode every emitted result has one of the three
`would_*` actions and `result = "success"`; the error branches are
unreachable (the dry-run branches of both phases raise nothing, so the
`except` handlers never fire). -/
theorem C10_theorem (gw : Gateway) (missing : List NetRecord) (view : String)
    (results : List CreationResult) (calls : List GwCall)
    (h : create_networks_with_overlap_handling gw missing view true =
      .ok (results, calls))
    (r : CreationResult) (hr : r ∈ results) :
    (r.action = "would_create_container" ∨ r.action = "would_create" ∨
     r.action = "would_create_in_container") ∧ r.result = some "success" := by
  unfold create_networks_with_overlap_handling at h
  rcases ha : analyze_network_overlaps missing with e | oa <;> rw [ha] at h
  · cases h
  · simp only [runPhases] at h
    simp only [containerPhase_dry, networkPhase_dry, List.append_nil,
      Except.ok.injEq, Prod.mk.injEq] at h
    obtain ⟨h1, h2⟩ := h
    subst h1
    rcases List.mem_append.mp hr with hm | hm
    · obtain ⟨x, hx, rfl⟩ := List.mem_map.mp hm
      simp [dryContainerResult]
    · obtain ⟨x, hx, rfl⟩ := List.mem_map.mp hm
      by_cases hp : (pickParent oa.containers x.cidr).isSome <;>
        simp [dryNetworkResult, hp]

/-- Witness for C10 on the nested batch `[B, C, A]` and its first result. -/
theorem C10_witness :
    ((dryContainerResult oaNested recB16).action = "would_create_container" ∨
     (dryContainerResult oaNested recB16).action = "would_create" ∨
     (dryContainerResult oaNested recB16).action = "would_create_in_container") ∧
      (dryContainerResult oaNested recB16).result = some "success" :=
  C10_theorem okGw [recB16, recC24, recA8] "default" dryNestedResults [] (by rfl)
    (dryContainerResult oaNested recB16) (by simp [dryNestedResults])

/-! ## C4 — order of the container-creation steps -/

/-- C4 counterexample: on input order `[B, C, A]` with `A ⊃ B ⊃ C`, the
container steps are emitted `B` first and then `A`, although `A` contains
`B` — the container phase walks the input list, it does not sort. -/
theorem C4_counterexample :
    (create_networks_with_overlap_handling okGw [recB16, recC24, recA8]
          "default" true).map
        (fun p => p.1.map (fun r => (r.cidr, r.action))) =
      .ok [("10.0.0.0/16", "would_create_container"),
           ("10.0.0.0/8", "would_create_container"),
           ("10.0.0.0/24", "would_create_in_container")] ∧
      check_network_overlap "10.0.0.0/8" "10.0.0.0/16" = "contains" := by
  constructor <;> rfl

/-- C4 (amended): the container-creation steps are emitted in the order in
which the container records appear in the *input list* (one step per record
whose CIDR is in `containers`), not in ascending prefix-length order. -/
theorem C4_theorem (gw : Gateway) (missing : List NetRecord) (view : String)
    (oa : OverlapAnalysis) (results : List CreationResult) (calls : List GwCall)
    (ha : analyze_network_overlaps missing = .ok oa)
    (h : create_networks_with_overlap_handling gw missing view true =
      .ok (results, calls)) :
    (results.filter (fun r => r.action == "would_create_container")).map
        (fun r => r.cidr) =
      (missing.filter (fun r => r.cidr ∈ oa.containers)).map (fun r => r.cidr) := by
  unfold create_networks_with_overlap_handling at h
  rw [ha] at h
  simp only [runPhases] at h
  simp only [containerPhase_dry, networkPhase_dry, List.append_nil,
    Except.ok.injEq, Prod.mk.injEq] at h
  obtain ⟨h1, h2⟩ := h
  subst h1
  rw [List.filter_append]
  have hA : ∀ m : List NetRecord,
      (m.map (dryContainerResult oa)).filter
          (fun r => r.action == "would_create_container") =
        m.map (dryContainerResult oa) := by
    intro m
    apply List.filter_eq_self.mpr
    intro r hr
    obtain ⟨x, _, rfl⟩ := List.mem_map.mp hr
    simp [dryContainerResult]
  have hB : ∀ m : List NetRecord,
      (m.map (dryNetworkResult oa)).filter
          (fun r => r.action == "would_create_container") = [] := by
    intro m
    apply List.filter_eq_nil_iff.mpr
    intro r hr
    obtain ⟨x, _, rfl⟩ := List.mem_map.mp hr
    by_cases hp : (pickParent oa.containers x.cidr).isSome <;>
      simp [dryNetworkResult, hp]
  rw [hA, hB, List.append_nil, List.map_map]
  simp [Function.comp, dryContainerResult]

/-- Witness for C4 on the nested batch `[B, C, A]`. -/
theorem C4_witness :
    (dryNestedResults.filter (fun r => r.action == "would_create_container")).map
        (fun r => r.cidr) =
      (([recB16, recC24, recA8].filter
          (fun r => r.cidr ∈ oaNested.containers)).map (fun r => r.cidr)) :=
  C4_theorem okGw [recB16, recC24, recA8] "default" oaNested dryNestedResults []
    (by rfl) (by rfl)

/-! ## Counting lemmas for the two phases -/

/-- The container phase (either mode) emits exactly one result per input
record whose CIDR is in `containers`. -/
theorem containerPhase_len (gw : Gateway) (oa : OverlapAnalysis) (v : String) (d : Bool) :
    ∀ l : List NetRecord,
      (containerPhase gw oa v d l).1.length =
        (l.filter (fun r => r.cidr ∈ oa.containers)).length
  | [] => by simp [containerPhase]
  | item :: rest => by
    have ih := containerPhase_len gw oa v d rest
    by_cases h : item.cidr ∈ oa.containers
    · cases d
      · rcases hg : gw.create_network_container item.cidr v
            (containerComment item.m_host item.site_id) item.mapped_eas with e | ref <;>
          simp [containerPhase, h, hg, List.filter_cons, ih]
      · simp [containerPhase, h, List.filter_cons, ih]
    · simp [containerPhase, h, List.filter_cons, ih]

/-- The leaf phase (either mode) emits exactly one result per input record
whose CIDR was not created as a container. -/
theorem networkPhase_len (gw : Gateway) (oa : OverlapAnalysis) (v : String) (d : Bool)
    (created : List String) :
    ∀ l : List NetRecord,
      (networkPhase gw oa v d created l).1.length =
        (l.filter (fun r => r.cidr ∉ created)).length
  | [] => by simp [networkPhase]
  | item :: rest => by
    have ih := networkPhase_len gw oa v d created rest
    by_cases h : item.cidr ∈ created
    · simp [networkPhase, h, List.filter_cons, ih]
    · cases d
      · rcases hg : gw.create_network item.cidr v
            (networkComment item.m_host item.site_id (pickParent oa.containers item.cidr))
            item.mapped_eas with e | ref <;>
          simp [networkPhase, h, hg, List.filter_cons, ih]
      · simp [networkPhase, h, List.filter_cons, ih]

/-- Every CIDR recorded in `created_containers` is a member of `containers`. -/
theorem containerPhase_created_sub (gw : Gateway) (oa : OverlapAnalysis) (v : String)
    (d : Bool) :
    ∀ l : List NetRecord, ∀ x ∈ (containerPhase gw oa v d l).2.2, x ∈ oa.containers
  | [] => by simp [containerPhase]
  | item :: rest => by
    intro x hx
    have ih := containerPhase_created_sub gw oa v d rest
    by_cases h : item.cidr ∈ oa.containers
    · cases d
      · rcases hg : gw.create_network_container item.cidr v
            (containerComment item.m_host item.site_id) item.mapped_eas with e | ref
        · simp [containerPhase, h, hg] at hx
          exact ih x hx
        · simp [containerPhase, h, hg] at hx
          rcases hx with rfl | hx
          · exact h
          · exact ih x hx
      · simp [containerPhase, h] at hx
        rcases hx with rfl | hx
        · exact h
        · exact ih x hx
    · simp [containerPhase, h] at hx
      exact ih x hx

/-- Filtering with a pointwise weaker predicate keeps at least as many
elements. -/
theorem filter_len_mono {α : Type} {p q : α → Bool} :
    ∀ l : List α, (∀ x ∈ l, p x = true → q x = true) →
      (l.filter p).length ≤ (l.filter q).length
  | [], _ => Nat.le_refl 0
  | a :: l, h => by
    have ih := filter_len_mono l (fun x hx => h x (List.mem_cons_of_mem a hx))
    by_cases hp : p a = true
    · rw [List.filter_cons_of_pos hp,
        List.filter_cons_of_pos (h a (List.mem_cons_self a l) hp)]
      exact Nat.succ_le_succ ih
    · rw [List.filter_cons_of_neg (by simpa using hp)]
      rcases hq : q a
      · rw [List.filter_cons_of_neg (by simp [hq])]
        exact ih
      · rw [List.filter_cons_of_pos hq]
        exact Nat.le_succ_of_le ih

/-! ## C6 — one result per record -/

/-- C6 counterexample: with a gateway whose container creation fails, the
two-record batch `[A, B]` (`A ⊃ B`) produces three results: `A` yields an
`error_container` result and — because its CIDR was never added to
`created_containers` — is re-processed by the leaf phase for a second
result. -/
theorem C6_counterexample :
    (create_networks_with_overlap_handling gwFailCont [recA8, recB16]
          "default" false).map (fun p => p.1.length) = .ok 3 ∧
      [recA8, recB16].length = 2 := by
  constructor <;> rfl

/-- C6 (amended): in dry-run mode the executor returns exactly one result
per input record; in live mode it returns *at least* one result per input
record (a record whose container creation fails is attempted again as a
leaf network, yielding two results), and a failure never prevents the
remaining records from being attempted. -/
theorem C6_theorem (gw : Gateway) (missing : List NetRecord) (view : String)
    (dres lres : List CreationResult) (dcalls lcalls : List GwCall)
    (hd : create_networks_with_overlap_handling gw missing view true =
      .ok (dres, dcalls))
    (hl : create_networks_with_overlap_handling gw missing view false =
      .ok (lres, lcalls)) :
    dres.length = missing.length ∧ missing.length ≤ lres.length := by
  unfold create_networks_with_overlap_handling at hd hl
  rcases ha : analyze_network_overlaps missing with e | oa <;> rw [ha] at hd hl
  · cases hd
  constructor
  · simp only [runPhases] at hd
    simp only [containerPhase_dry, networkPhase_dry, Except.ok.injEq,
      Prod.mk.injEq] at hd
    obtain ⟨h1, h2⟩ := hd
    subst h1
    rw [List.length_append, List.length_map, List.length_map]
    have hiff : ∀ x ∈ missing,
        (x.cidr ∈ (missing.filter (fun r => r.cidr ∈ oa.containers)).map
            (fun r => r.cidr) ↔ x.cidr ∈ oa.containers) := by
      intro x hx
      constructor
      · intro hm
        obtain ⟨y, hy, hyx⟩ := List.mem_map.mp hm
        have hyc := List.of_mem_filter hy
        rw [← hyx]
        simpa using hyc
      · intro hc
        exact List.mem_map.mpr ⟨x, List.mem_filter.mpr ⟨hx, by simpa using hc⟩, rfl⟩
    conv_rhs =>
      rw [List.length_eq_length_filter_add (fun r => decide (r.cidr ∈ oa.containers))]
    congr 1
    apply congrArg
    apply List.filter_congr
    intro x hx
    simp only [decide_not]
    exact congrArg Bool.not (decide_eq_decide.mpr (hiff x hx))
  · simp only [runPhases, Except.ok.injEq, Prod.mk.injEq] at hl
    obtain ⟨h1, h2⟩ := hl
    subst h1
    rw [List.length_append, containerPhase_len, networkPhase_len]
    conv_lhs =>
      rw [List.length_eq_length_filter_add (fun r => decide (r.cidr ∈ oa.containers))]
    apply Nat.add_le_add_left
    apply filter_len_mono
    intro x hx hnc
    simp only [Bool.not_eq_true', decide_eq_false_iff_not] at hnc
    simp only [decide_eq_true_eq]
    exact fun hmem => hnc (containerPhase_created_sub gw oa view false missing x.cidr hmem)

/-- Witness for C6 on the single-record batch `[C]` under an all-success
gateway. -/
theorem C6_witness :
    [dryNetworkResult ⟨[], [], []⟩ recC24].length = [recC24].length ∧
      [recC24].length ≤ [liveC24Result].length :=
  C6_theorem okGw [recC24] "default" [dryNetworkResult ⟨[], [], []⟩ recC24]
    [liveC24Result] []
    [GwCall.network "10.0.0.0/24" "default" "Property Network: hc (Site ID: sc)" []]
    (by rfl) (by rfl)

/-! ## C7 — error classification of failed creation steps -/

/-- C7 counterexample: a leaf creation failing with the message
`Invalid input` is classified `unknown`, not the claimed `invalid`: the
code's table only has the `overlap` and `permission` rules. -/
theorem C7_counterexample :
    (create_networks_with_overlap_handling gwInvalid [recC24] "default" false).map
        (fun p => p.1.map (fun r => (r.action, r.error, r.category))) =
      .ok [("error", some "Invalid input", some "unknown")] := by
  rfl

/-- The container phase in live mode emits only `created_container` results
or `error_container` results with category `container_creation`. -/
theorem containerPhase_live_fields (gw : Gateway) (oa : OverlapAnalysis) (v : String) :
    ∀ l : List NetRecord, ∀ r ∈ (containerPhase gw oa v false l).1,
      r.action = "created_container" ∨
        (r.action = "error_container" ∧ r.category = some "container_creation")
  | [] => by simp [containerPhase]
  | item :: rest => by
    intro r hr
    have ih := containerPhase_live_fields gw oa v rest
    by_cases h : item.cidr ∈ oa.containers
    · rcases hg : gw.create_network_container item.cidr v
          (containerComment item.m_host item.site_id) item.mapped_eas with e | ref
      · simp [containerPhase, h, hg] at hr
        rcases hr with rfl | hr
        · right
          exact ⟨rfl, rfl⟩
        · exact ih r hr
      · simp [containerPhase, h, hg] at hr
        rcases hr with rfl | hr
        · left
          rfl
        · exact ih r hr
    · simp [containerPhase, h] at hr
      exact ih r hr

/-- The leaf phase in live mode emits only `created`/`created_in_container`
results or `error` results whose category is `categorize` of the message. -/
theorem networkPhase_live_fields (gw : Gateway) (oa : OverlapAnalysis) (v : String)
    (created : List String) :
    ∀ l : List NetRecord, ∀ r ∈ (networkPhase gw oa v false created l).1,
      (r.action = "created" ∨ r.action = "created_in_container") ∨
        (r.action = "error" ∧ ∃ e, r.error = some e ∧ r.category = some (categorize e))
  | [] => by simp [networkPhase]
  | item :: rest => by
    intro r hr
    have ih := networkPhase_live_fields gw oa v created rest
    by_cases h : item.cidr ∈ created
    · simp [networkPhase, h] at hr
      exact ih r hr
    · rcases hg : gw.create_network item.cidr v
          (networkComment item.m_host item.site_id (pickParent oa.containers item.cidr))
          item.mapped_eas with e | ref
      · simp [networkPhase, h, hg] at hr
        rcases hr with rfl | hr
        · right
          exact ⟨rfl, e, rfl, rfl⟩
        · exact ih r hr
      · simp [networkPhase, h, hg] at hr
        rcases hr with rfl | hr
        · left
          by_cases hp : (pickParent oa.containers item.cidr).isSome <;> simp [hp]
        · exact ih r hr

/-- C7 (amended): a failed *leaf* creation is categorized by case-insensitive
substring match with the two-rule table — `overlap` → `overlap`, else
`permission` → `permission`, otherwise `unknown` (no `invalid`,
`network_view_error`, `not_found` or `ea_error` rules exist) — while a
failed *container* creation is always categorized `container_creation`. -/
theorem C7_theorem (gw : Gateway) (missing : List NetRecord) (view : String)
    (results : List CreationResult) (calls : List GwCall) (r : CreationResult)
    (e : String)
    (h : create_networks_with_overlap_handling gw missing view false =
      .ok (results, calls))
    (hr : r ∈ results) :
    (r.action = "error" → r.error = some e →
      r.category = some
        (if listInfix "overlap".toList (e.toList.map charLower) then "overlap"
         else if listInfix "permission".toList (e.toList.map charLower) then "permission"
         else "unknown")) ∧
    (r.action = "error_container" → r.category = some "container_creation") := by
  unfold create_networks_with_overlap_handling at h
  rcases ha : analyze_network_overlaps missing with e' | oa <;> rw [ha] at h
  · cases h
  simp only [runPhases, Except.ok.injEq, Prod.mk.injEq] at h
  obtain ⟨h1, h2⟩ := h
  subst h1
  rcases List.mem_append.mp hr with hm | hm
  · rcases containerPhase_live_fields gw oa view missing r hm with hA | ⟨hA, hC⟩
    · constructor
      · intro he
        exact absurd (hA.symm.trans he) (by decide)
      · intro he
        exact absurd (hA.symm.trans he) (by decide)
    · constructor
      · intro he
        exact absurd (hA.symm.trans he) (by decide)
      · intro _
        exact hC
  · rcases networkPhase_live_fields gw oa view _ missing r hm with hA | ⟨hA, e', he', hcat⟩
    · rcases hA with hA | hA <;> constructor <;> intro he <;>
        exact absurd (hA.symm.trans he) (by decide)
    · constructor
      · intro _ he2
        rw [he'] at he2
        injection he2 with he2
        subst he2
        exact hcat
      · intro he
        exact absurd (hA.symm.trans he) (by decide)

/-- Witness for C7 on the failing single-record batch under `gwInvalid`. -/
theorem C7_witness :
    (invalidC24Result.action = "error" →
      invalidC24Result.error = some "Invalid input" →
      invalidC24Result.category = some
        (if listInfix "overlap".toList ("Invalid input".toList.map charLower) then "overlap"
         else if listInfix "permission".toList
            ("Invalid input".toList.map charLower) then "permission"
         else "unknown")) ∧
    (invalidC24Result.action = "error_container" →
      invalidC24Result.category = some "container_creation") :=
  C7_theorem gwInvalid [recC24] "default" [invalidC24Result]
    [GwCall.network "10.0.0.0/24" "default" "Property Network: hc (Site ID: sc)" []]
    invalidC24Result "Invalid input" (by rfl) (by simp)

/-! ## C5 — dry-run refines live mode -/

/-- Live container phase under an all-success gateway: one
`created_container` result and one gateway call per container record, in
input order. -/
theorem containerPhase_live_ok
    (f g : String → String → String → List (String × String) → String)
    (oa : OverlapAnalysis) (v : String) :
    ∀ l : List NetRecord,
      containerPhase (gwOf f g) oa v false l =
        ((l.filter (fun r => r.cidr ∈ oa.containers)).map (liveContainerResult f oa v),
         (l.filter (fun r => r.cidr ∈ oa.containers)).map (containerCall v),
         (l.filter (fun r => r.cidr ∈ oa.containers)).map (fun r => r.cidr))
  | [] => by simp [containerPhase]
  | item :: rest => by
    have ih := containerPhase_live_ok f g oa v rest
    simp only [gwOf] at ih ⊢
    by_cases h : item.cidr ∈ oa.containers <;>
      simp [containerPhase, h, ih, liveContainerResult, containerCall, List.filter_cons]

/-- Live leaf phase under an all-success gateway: one result and one call
per remaining record, in input order. -/
theorem networkPhase_live_ok
    (f g : String → String → String → List (String × String) → String)
    (oa : OverlapAnalysis) (v : String) (created : List String) :
    ∀ l : List NetRecord,
      networkPhase (gwOf f g) oa v false created l =
        ((l.filter (fun r => r.cidr ∉ created)).map (liveNetworkResult g oa v),
         (l.filter (fun r => r.cidr ∉ created)).map (networkCall oa v))
  | [] => by simp [networkPhase]
  | item :: rest => by
    have ih := networkPhase_live_ok f g oa v created rest
    simp only [gwOf] at ih ⊢
    by_cases h : item.cidr ∈ created <;>
      simp [networkPhase, h, ih, liveNetworkResult, networkCall, List.filter_cons]

/-- C5: against any gateway whose calls succeed, dry-run and live mode
enumerate exactly the same steps — same number of results, same CIDRs in
the same order, and actions corresponding under `would_create_container` ↔
`created_container`, `would_create` ↔ `created`, `would_create_in_container`
↔ `created_in_container` — and dry-run performs no gateway calls at all
(its call trace is empty). -/
theorem C5_theorem (f g : String → String → String → List (String × String) → String)
    (missing : List NetRecord) (view : String)
    (dres lres : List CreationResult) (dcalls lcalls : List GwCall)
    (hd : create_networks_with_overlap_handling (gwOf f g) missing view true =
      .ok (dres, dcalls))
    (hl : create_networks_with_overlap_handling (gwOf f g) missing view false =
      .ok (lres, lcalls)) :
    dcalls = [] ∧
      dres.map (fun r => (r.cidr, liveActionOf r.action)) =
        lres.map (fun r => (r.cidr, r.action)) := by
  unfold create_networks_with_overlap_handling at hd hl
  rcases ha : analyze_network_overlaps missing with e | oa <;> rw [ha] at hd hl
  · cases hd
  simp only [runPhases] at hd hl
  simp only [containerPhase_dry, networkPhase_dry, containerPhase_live_ok,
    networkPhase_live_ok, List.append_nil, Except.ok.injEq, Prod.mk.injEq] at hd hl
  obtain ⟨hd1, hd2⟩ := hd
  obtain ⟨hl1, hl2⟩ := hl
  subst hd1
  subst hl1
  refine ⟨hd2.symm, ?_⟩
  have hfun1 : ((fun r : CreationResult => (r.cidr, liveActionOf r.action)) ∘
        dryContainerResult oa) =
      ((fun r : CreationResult => (r.cidr, r.action)) ∘ liveContainerResult f oa view) := by
    funext x
    simp [dryContainerResult, liveContainerResult, liveActionOf, Function.comp]
  have hfun2 : ((fun r : CreationResult => (r.cidr, liveActionOf r.action)) ∘
        dryNetworkResult oa) =
      ((fun r : CreationResult => (r.cidr, r.action)) ∘ liveNetworkResult g oa view) := by
    funext x
    by_cases hp : (pickParent oa.containers x.cidr).isSome <;>
      simp [dryNetworkResult, liveNetworkResult, liveActionOf, hp, Function.comp]
  rw [List.map_append, List.map_append, List.map_map, List.map_map, List.map_map,
    List.map_map, hfun1, hfun2]

/-- Witness for C5 on the single-record batch `[C]`. -/
theorem C5_witness :
    ([] : List GwCall) = [] ∧
      [dryNetworkResult ⟨[], [], []⟩ recC24].map
          (fun r => (r.cidr, liveActionOf r.action)) =
        [liveC24Result].map (fun r => (r.cidr, r.action)) :=
  C5_theorem (fun _ _ _ _ => "ref") (fun _ _ _ _ => "ref") [recC24] "default"
    [dryNetworkResult ⟨[], [], []⟩ recC24] [liveC24Result] []
    [GwCall.network "10.0.0.0/24" "default" "Property Network: hc (Site ID: sc)" []]
    (by rfl) (by rfl)

/-! ## C3 — which container becomes the parent -/

/-- C3 counterexample: on the nested batch `[A, B, C]`
(`10.0.0.0/8 ⊃ 10.0.0.0/16 ⊃ 10.0.0.0/24`), `C`'s creation step gets
`parent_container = 10.0.0.0/8` — the `for ... break` over the container
set stops at its first member — although `10.0.0.0/16` is a more specific
container that also contains `C` (second conjunct). -/
theorem C3_counterexample :
    (create_networks_with_overlap_handling okGw [recA8, recB16, recC24]
          "default" true).map
        (fun pr => pr.1.map (fun r => (r.cidr, r.parent_container))) =
      .ok [("10.0.0.0/8", none), ("10.0.0.0/16", none),
           ("10.0.0.0/24", some "10.0.0.0/8")] ∧
      check_network_overlap "10.0.0.0/16" "10.0.0.0/24" = "contains" := by
  constructor <;> rfl

/-- `sortKey` success determines `keyI`. -/
theorem keyI_of_sortKey {r : NetRecord} {k : Int} (h : sortKey r = .ok k) :
    keyI r.cidr = k := by
  unfold sortKey at h
  unfold keyI
  split at h
  · cases h
  · rename_i s hs
    split at h
    · cases h
    · rename_i k' hk'
      cases h
      rw [hk']
      rfl

/-- When `keyAll` succeeds, every attached key is the record's sort key. -/
theorem keyAll_ok_keys :
    ∀ {l : List NetRecord} {keyed : List (Int × NetRecord)},
      keyAll l = .ok keyed → ∀ p ∈ keyed, sortKey p.2 = .ok p.1 := by
  intro l
  induction l with
  | nil =>
    intro keyed h p hp
    simp [keyAll] at h
    subst h
    cases hp
  | cons r rest ih =>
    intro keyed h p hp
    unfold keyAll at h
    split at h
    · cases h
    · rename_i k hk
      split at h
      · cases h
      · rename_i ks hks
        cases h
        rcases List.mem_cons.mp hp with rfl | hp'
        · exact hk
        · exact ih hks p hp'

theorem mem_insertByKey {x p : Int × NetRecord} :
    ∀ {l : List (Int × NetRecord)}, x ∈ insertByKey p l ↔ x = p ∨ x ∈ l := by
  intro l
  induction l with
  | nil => simp [insertByKey]
  | cons q rest ih =>
    unfold insertByKey
    by_cases h : p.1 ≤ q.1 <;> simp [h, List.mem_cons, ih] <;> tauto

theorem mem_insertionSortByKey {x : Int × NetRecord} :
    ∀ {l : List (Int × NetRecord)}, x ∈ insertionSortByKey l ↔ x ∈ l := by
  intro l
  induction l with
  | nil => simp [insertionSortByKey]
  | cons q rest ih => simp [insertionSortByKey, mem_insertByKey, ih, List.mem_cons]

theorem pairwise_insertByKey {p : Int × NetRecord} :
    ∀ {l : List (Int × NetRecord)},
      l.Pairwise (fun a b => a.1 ≤ b.1) →
      (insertByKey p l).Pairwise (fun a b => a.1 ≤ b.1) := by
  intro l
  induction l with
  | nil =>
    intro _
    simp [insertByKey]
  | cons q rest ih =>
    intro h
    rw [List.pairwise_cons] at h
    obtain ⟨hq, hrest⟩ := h
    unfold insertByKey
    by_cases hle : p.1 ≤ q.1
    · rw [if_pos hle]
      rw [List.pairwise_cons]
      constructor
      · intro b hb
        rcases List.mem_cons.mp hb with rfl | hb'
        · exact hle
        · exact le_trans hle (hq b hb')
      · exact List.pairwise_cons.mpr ⟨hq, hrest⟩
    · rw [if_neg hle]
      rw [List.pairwise_cons]
      constructor
      · intro b hb
        rcases mem_insertByKey.mp hb with rfl | hb'
        · exact le_of_not_le hle
        · exact hq b hb'
      · exact ih hrest

/-- The insertion sort produces a key-sorted list. -/
theorem pairwise_insertionSortByKey :
    ∀ l : List (Int × NetRecord),
      (insertionSortByKey l).Pairwise (fun a b => a.1 ≤ b.1)
  | [] => by simp [insertionSortByKey]
  | p :: rest => by
    unfold insertionSortByKey
    exact pairwise_insertByKey (pairwise_insertionSortByKey rest)

/-- The record list the pair scan walks is sorted by prefix-length key. -/
theorem srt_pairwise {networks : List NetRecord} {keyed : List (Int × NetRecord)}
    (hk : keyAll networks = .ok keyed) :
    ((insertionSortByKey keyed).map (fun p => p.2)).Pairwise
      (fun r s => keyI r.cidr ≤ keyI s.cidr) := by
  rw [List.pairwise_map]
  apply List.Pairwise.imp_of_mem ?_ (pairwise_insertionSortByKey keyed)
  intro a b ha hb hle
  rw [keyI_of_sortKey (keyAll_ok_keys hk a (mem_insertionSortByKey.mp ha)),
    keyI_of_sortKey (keyAll_ok_keys hk b (mem_insertionSortByKey.mp hb))]
  exact hle

theorem mem_setAdd {y x : String} {s : List String} :
    y ∈ setAdd s x ↔ y ∈ s ∨ y = x := by
  unfold setAdd
  split
  · rename_i hx
    constructor
    · exact Or.inl
    · rintro (h | rfl)
      · exact h
      · exact hx
  · simp [List.mem_append]

theorem setAdd_idem {x : String} {s : List String} :
    setAdd (setAdd s x) x = setAdd s x := by
  unfold setAdd
  split
  · rename_i hx
    simp [hx]
  · simp

theorem pairwise_setAdd {x : String} {s : List String}
    (hs : s.Pairwise (fun a b => keyI a ≤ keyI b))
    (hb : ∀ y ∈ s, keyI y ≤ keyI x) :
    (setAdd s x).Pairwise (fun a b => keyI a ≤ keyI b) := by
  unfold setAdd
  split
  · exact hs
  · rw [List.pairwise_append]
    exact ⟨hs, List.pairwise_singleton _ _, by simpa using hb⟩

/-- A single pair step either leaves `containers` alone or adds `n1.cidr`. -/
theorem processPair_containers (n1 : NetRecord) (acc : OverlapAnalysis) (r : NetRecord) :
    (processPair n1 acc r).containers = acc.containers ∨
      (processPair n1 acc r).containers = setAdd acc.containers n1.cidr := by
  unfold processPair
  by_cases h1 : check_network_overlap n1.cidr r.cidr = "contains"
  · simp [h1]
  · by_cases h2 : check_network_overlap n1.cidr r.cidr = "overlap" <;> simp [h1, h2]

/-- The whole inner loop for `n1` either leaves `containers` alone or adds
`n1.cidr`. -/
theorem foldl_processPair_containers (n1 : NetRecord) :
    ∀ (rest : List NetRecord) (acc : OverlapAnalysis),
      (rest.foldl (processPair n1) acc).containers = acc.containers ∨
        (rest.foldl (processPair n1) acc).containers = setAdd acc.containers n1.cidr
  | [], acc => Or.inl rfl
  | r :: rest, acc => by
    rw [List.foldl_cons]
    rcases processPair_containers n1 acc r with h | h <;>
      rcases foldl_processPair_containers n1 rest (processPair n1 acc r) with h' | h' <;>
        rw [h'] <;> rw [h]
    · exact Or.inl rfl
    · exact Or.inr rfl
    · exact Or.inr rfl
    · exact Or.inr setAdd_idem

/-- Walking a key-sorted record list keeps `containers` sorted by key:
every CIDR is appended while it is the minimal remaining key. -/
theorem pairLoop_containers_sorted :
    ∀ (l : List NetRecord) (acc : OverlapAnalysis),
      l.Pairwise (fun r s => keyI r.cidr ≤ keyI s.cidr) →
      acc.containers.Pairwise (fun a b => keyI a ≤ keyI b) →
      (∀ x ∈ acc.containers, ∀ r ∈ l, keyI x ≤ keyI r.cidr) →
      (pairLoop l acc).containers.Pairwise (fun a b => keyI a ≤ keyI b)
  | [], acc, _, hacc, _ => hacc
  | n1 :: rest, acc, hl, hacc, hbound => by
    rw [List.pairwise_cons] at hl
    obtain ⟨hn1, hrest⟩ := hl
    unfold pairLoop
    apply pairLoop_containers_sorted rest _ hrest
    · rcases foldl_processPair_containers n1 rest acc with h | h <;> rw [h]
      · exact hacc
      · apply pairwise_setAdd hacc
        intro y hy
        exact hbound y hy n1 (List.mem_cons_self n1 rest)
    · intro x hx r hr
      rcases foldl_processPair_containers n1 rest acc with h | h <;> rw [h] at hx
      · exact hbound x hx r (List.mem_cons_of_mem n1 hr)
      · rcases mem_setAdd.mp hx with hx' | rfl
        · exact hbound x hx' r (List.mem_cons_of_mem n1 hr)
        · exact hn1 r hr

/-- The analyzer's `containers` list is ascending in prefix-length key. -/
theorem analyze_containers_sorted {networks : List NetRecord} {oa : OverlapAnalysis}
    (ha : analyze_network_overlaps networks = .ok oa) :
    oa.containers.Pairwise (fun a b => keyI a ≤ keyI b) := by
  unfold analyze_network_overlaps at ha
  split at ha
  · cases ha
  · rename_i keyed hk
    cases ha
    exact pairLoop_containers_sorted _ _ (srt_pairwise hk) (List.Pairwise.nil)
      (by intro x hx; cases hx)

/-- On a key-sorted container list, the `for ... break` search returns a
matching container of minimal key. -/
theorem pickParent_min {cidr p : String} :
    ∀ {containers : List String},
      containers.Pairwise (fun a b => keyI a ≤ keyI b) →
      pickParent containers cidr = some p →
      p ∈ containers ∧ check_network_overlap p cidr = "contains" ∧
        ∀ c ∈ containers, check_network_overlap c cidr = "contains" → keyI p ≤ keyI c := by
  intro containers
  induction containers with
  | nil =>
    intro _ hp
    cases hp
  | cons c cs ih =>
    intro hs hp
    rw [List.pairwise_cons] at hs
    obtain ⟨hc, hcs⟩ := hs
    unfold pickParent at hp
    by_cases hcc : check_network_overlap c cidr = "contains"
    · rw [List.find?_cons_of_pos _ (by simp [hcc])] at hp
      injection hp with hp
      subst hp
      refine ⟨List.mem_cons_self _ _, hcc, ?_⟩
      intro x hx _
      rcases List.mem_cons.mp hx with rfl | hx'
      · exact le_refl _
      · exact hc x hx'
    · rw [List.find?_cons_of_neg _ (by simp [hcc])] at hp
      obtain ⟨hmem, hch, hmin⟩ := ih hcs hp
      refine ⟨List.mem_cons_of_mem c hmem, hch, ?_⟩
      intro x hx hxc
      rcases List.mem_cons.mp hx with rfl | hx'
      · exact absurd hxc hcc
      · exact hmin x hx' hxc

/-- Container-phase results carry no parent. -/
theorem containerPhase_parent_none (gw : Gateway) (oa : OverlapAnalysis) (v : String)
    (d : Bool) :
    ∀ l : List NetRecord, ∀ r ∈ (containerPhase gw oa v d l).1,
      r.parent_container = none
  | [] => by simp [containerPhase]
  | item :: rest => by
    intro r hr
    have ih := containerPhase_parent_none gw oa v d rest
    by_cases h : item.cidr ∈ oa.containers
    · cases d
      · rcases hg : gw.create_network_container item.cidr v
            (containerComment item.m_host item.site_id) item.mapped_eas with e | ref
        · simp [containerPhase, h, hg] at hr
          rcases hr with rfl | hr
          · rfl
          · exact ih r hr
        · simp [containerPhase, h, hg] at hr
          rcases hr with rfl | hr
          · rfl
          · exact ih r hr
      · simp [containerPhase, h] at hr
        rcases hr with rfl | hr
        · rfl
        · exact ih r hr
    · simp [containerPhase, h] at hr
      exact ih r hr

/-- Every leaf-phase result's parent is `pickParent` of its own CIDR. -/
theorem networkPhase_parent (gw : Gateway) (oa : OverlapAnalysis) (v : String)
    (d : Bool) (created : List String) :
    ∀ l : List NetRecord, ∀ r ∈ (networkPhase gw oa v d created l).1,
      r.parent_container = pickParent oa.containers r.cidr
  | [] => by simp [networkPhase]
  | item :: rest => by
    intro r hr
    have ih := networkPhase_parent gw oa v d created rest
    by_cases h : item.cidr ∈ created
    · simp [networkPhase, h] at hr
      exact ih r hr
    · cases d
      · rcases hg : gw.create_network item.cidr v
            (networkComment item.m_host item.site_id (pickParent oa.containers item.cidr))
            item.mapped_eas with e | ref
        · simp [networkPhase, h, hg] at hr
          rcases hr with rfl | hr
          · rfl
          · exact ih r hr
        · simp [networkPhase, h, hg] at hr
          rcases hr with rfl | hr
          · rfl
          · exact ih r hr
      · simp [networkPhase, h] at hr
        rcases hr with rfl | hr
        · rfl
        · exact ih r hr

/-- C3 (amended): the parent assigned to a creation step is a container
that contains the record and is of *minimal* prefix-length key among the
matching containers — the most **general** one, not the most specific: the
search takes the first match in the container list, which the analyzer
built in ascending prefix-length order. In particular, for nested
`A ⊃ B ⊃ C` the step for `C` gets `parent_container = A`, not `B`. -/
theorem C3_theorem (gw : Gateway) (missing : List NetRecord) (view : String) (d : Bool)
    (oa : OverlapAnalysis) (results : List CreationResult) (calls : List GwCall)
    (res : CreationResult) (p : String)
    (ha : analyze_network_overlaps missing = .ok oa)
    (hx : create_networks_with_overlap_handling gw missing view d = .ok (results, calls))
    (hr : res ∈ results) (hp : res.parent_container = some p) :
    p ∈ oa.containers ∧ check_network_overlap p res.cidr = "contains" ∧
      ∀ c ∈ oa.containers, check_network_overlap c res.cidr = "contains" →
        keyI p ≤ keyI c := by
  unfold create_networks_with_overlap_handling at hx
  rw [ha] at hx
  simp only [runPhases, Except.ok.injEq, Prod.mk.injEq] at hx
  obtain ⟨h1, h2⟩ := hx
  subst h1
  rcases List.mem_append.mp hr with hm | hm
  · rw [containerPhase_parent_none gw oa view d missing res hm] at hp
    cases hp
  · rw [networkPhase_parent gw oa view d _ missing res hm] at hp
    exact pickParent_min (analyze_containers_sorted ha) hp

/-- Witness for C3 on the nested batch `[A, B, C]`: the parent assigned to
`C` is `10.0.0.0/8`. -/
theorem C3_witness :
    "10.0.0.0/8" ∈ oaNested.containers ∧
      check_network_overlap "10.0.0.0/8" (dryNetworkResult oaNested recC24).cidr =
        "contains" ∧
      ∀ c ∈ oaNested.containers,
        check_network_overlap c (dryNetworkResult oaNested recC24).cidr = "contains" →
          keyI "10.0.0.0/8" ≤ keyI c :=
  C3_theorem okGw [recA8, recB16, recC24] "default" true oaNested
    [dryContainerResult oaNested recA8, dryContainerResult oaNested recB16,
     dryNetworkResult oaNested recC24] []
    (dryNetworkResult oaNested recC24) "10.0.0.0/8" (by rfl) (by rfl) (by simp)
    (by rfl)

end AwsInfoblox




